import Mathlib

/-!
Verification of the Semantic Retrieval & Context Assembly Pipeline
(backend/services of the social-ai-agents repository).

Shallow embedding conventions:
* Embedding vectors are `List ℝ` (Python floats are modelled exactly, as reals).
* The per-owner `github_activity` table is a `List Commit` kept in the order the
  store returns rows: newest-first (`order by commit_date desc`).  All operations
  in the source are scoped to one `user_id`; a `Store` value is that owner's
  partition, so owner scoping is implicit.
* Dates are integers (days); the calendar rendering of dates in formatted output
  is abstracted to `toString`.
* External collaborators (the Gemini embedding provider, the Supabase RPC vector
  operator, the user-context table) are oracle parameters of `Except String` type:
  `.error` models a raised exception at that boundary.
* Python's `round(x, n)` rounds half-to-even on binary floats; here `round4` /
  `round2` use Mathlib's `round` (half-up).  No claim under verification depends
  on behaviour at exact half-way points.
-/

namespace SocialAI

/-! ## Vector geometry (embedding_service.py / sklearn cosine_similarity) -/

def dotList (a b : List ℝ) : ℝ := (List.zipWith (· * ·) a b).sum

def sumSq (a : List ℝ) : ℝ := (a.map (fun x => x * x)).sum

noncomputable def l2norm (a : List ℝ) : ℝ := Real.sqrt (sumSq a)

/-- `sklearn.metrics.pairwise.cosine_similarity` on two row vectors.
sklearn replaces a zero norm by 1 before dividing; in that case the dot product
is 0 as well, so plain division (with Mathlib's `x / 0 = 0`) agrees with it. -/
noncomputable def cosineSim (a b : List ℝ) : ℝ := dotList a b / (l2norm a * l2norm b)

/-- `EmbeddingService._normalize_embedding`: divide by the L2 norm when it is
positive, otherwise return the raw values unchanged. -/
noncomputable def normalizeEmbedding (values : List ℝ) : List ℝ :=
  let norm := l2norm values
  if norm > 0 then values.map (fun x => x / norm) else values

/-- Python `round(x, 4)` (modulo half-way ties, see the file header). -/
noncomputable def round4 (x : ℝ) : ℚ := (round (x * 10000) : ℤ) / 10000

/-- Python `round(x, 2)` on an exact rational. -/
def round2 (x : ℚ) : ℚ := (round (x * 100) : ℤ) / 100

/-! ## Data model (github_activity rows) -/

/-- One row of the `github_activity` table, restricted to the columns this
pipeline reads.  `embedding` is the nullable vector column. -/
structure Commit where
  hash : String
  message : String
  date : Int
  repo : String
  embedding : Option (List ℝ)

/-- An owner's partition of the `github_activity` table, in the store's
newest-first return order. -/
abbrev Store := List Commit

/-! ## Store adapter (github_data_service.py) -/

/-- `get_commits_without_embeddings`: rows with a null `embedding`,
newest-first, bounded by `limit`. -/
def getCommitsWithoutEmbeddings (store : Store) (limit : Nat) : List Commit :=
  (store.filter (fun c => c.embedding.isNone)).take limit

/-- `get_commits_with_embeddings`: rows with a non-null `embedding`,
newest-first, bounded by `limit`. -/
def getCommitsWithEmbeddings (store : Store) (limit : Nat) : List Commit :=
  (store.filter (fun c => c.embedding.isSome)).take limit

/-- `get_user_github_activity`: newest-first rows, optionally restricted to the
last `days` days, bounded by `limit`.  `now` is the current day. -/
def getUserGithubActivity (store : Store) (limit : Nat) (days : Option Int) (now : Int) :
    List Commit :=
  match days with
  | none => store.take limit
  | some d => (store.filter (fun c => decide (now - d ≤ c.date))).take limit

/-- `save_commit_embedding`: update the `embedding` column of the rows matching
`hash`; the boolean reports whether any row matched (`len(result.data) > 0`). -/
def saveCommitEmbedding (store : Store) (hash : String) (emb : List ℝ) : Store × Bool :=
  (store.map (fun c => if c.hash = hash then { c with embedding := some emb } else c),
   store.any (fun c => c.hash = hash))

structure CommitEmbedding where
  hash : String
  embedding : List ℝ

structure SaveResult where
  success : Nat
  failed : Nat

/-- `save_commit_embeddings_batch`: apply `save_commit_embedding` per item in
order, counting successes and failures; an item with a falsy hash or a falsy
embedding list is counted failed without touching the store. -/
def saveCommitEmbeddingsBatch (store : Store) : List CommitEmbedding → Store × SaveResult
  | [] => (store, ⟨0, 0⟩)
  | item :: rest =>
    if item.hash.data.isEmpty || item.embedding.isEmpty then
      let r := saveCommitEmbeddingsBatch store rest
      (r.1, ⟨r.2.success, r.2.failed + 1⟩)
    else
      let step := saveCommitEmbedding store item.hash item.embedding
      let r := saveCommitEmbeddingsBatch step.1 rest
      if step.2 then (r.1, ⟨r.2.success + 1, r.2.failed⟩)
      else (r.1, ⟨r.2.success, r.2.failed + 1⟩)

structure EmbeddingStats where
  total_commits : Nat
  commits_with_embeddings : Nat
  commits_without_embeddings : Nat
  percentage_complete : ℚ
  ready_for_search : Bool
deriving DecidableEq

/-- `get_embedding_stats`: counts and completion percentage (guarded against a
zero total), percentage rounded to two decimals. -/
def getEmbeddingStats (store : Store) : EmbeddingStats :=
  let total := store.length
  let withEmb := (store.filter (fun c => c.embedding.isSome)).length
  { total_commits := total
    commits_with_embeddings := withEmb
    commits_without_embeddings := total - withEmb
    percentage_complete := if total > 0 then round2 ((withEmb : ℚ) / (total : ℚ) * 100) else 0
    ready_for_search := withEmb > 0 }

/-! ## Similarity search engine (github_data_service.py, search_similar_commits) -/

/-- A result row of similarity search (primary RPC rows and fallback rows share
this shape).  `similarity` is the score field attached to the row; the fallback
stores it rounded to four decimals. -/
structure SearchRow where
  hash : String
  message : String
  date : Int
  repo : String
  similarity : ℚ
deriving DecidableEq

/-- The argument record of the `search_similar_commits` Supabase RPC call. -/
structure RpcParams where
  query_user_id : String
  query_embedding : List ℝ
  match_threshold : ℝ
  match_count : Nat

/-- The store-side vector-ranking operator: an external boundary that either
returns rows or raises. -/
def Rpc : Type := RpcParams → Except String (List SearchRow)

/-- The parameter record `search_similar_commits` builds for the RPC call:
`match_threshold` is `1 - min_similarity` (similarity converted to distance). -/
def searchParams (userId : String) (q : List ℝ) (limit : Nat) (minSim : ℝ) : RpcParams :=
  { query_user_id := userId
    query_embedding := q
    match_threshold := 1 - minSim
    match_count := limit }

/-- The per-commit body of the fallback loop: skip rows with a falsy embedding,
compute cosine similarity, keep the row iff `similarity >= min_similarity`,
storing the score rounded to four decimals. -/
noncomputable def scoreCommit (q : List ℝ) (minSim : ℝ) (c : Commit) : Option SearchRow :=
  match c.embedding with
  | none => none
  | some e =>
    if e.isEmpty then none
    else if minSim ≤ cosineSim q e then
      some { hash := c.hash, message := c.message, date := c.date, repo := c.repo,
             similarity := round4 (cosineSim q e) }
    else none

/-- `numpy`/`sklearn` raise on a dimension mismatch between the query vector
and a stored vector; the fallback's `except` then returns `[]`.  This detects
whether any scored row would hit that mismatch. -/
def dimMismatch (q : List ℝ) (commits : List Commit) : Bool :=
  commits.any (fun c =>
    match c.embedding with
    | some e => !e.isEmpty && e.length != q.length
    | none => false)

/-- Stable descending insertion by the `similarity` field: the new row goes in
front of the first row whose score is not larger, so rows that were earlier in
the input stay in front of equal scores.  Extensionally this is Python's stable
`list.sort(key=similarity, reverse=True)`. -/
def insertBySimDesc (r : SearchRow) : List SearchRow → List SearchRow
  | [] => [r]
  | b :: bs => if b.similarity ≤ r.similarity then r :: b :: bs else b :: insertBySimDesc r bs

def sortBySimDesc : List SearchRow → List SearchRow
  | [] => []
  | r :: rs => insertBySimDesc r (sortBySimDesc rs)

/-- `_search_similar_commits_fallback`: load up to 1000 rows with embeddings,
score them in process, sort descending by score (stable), truncate to `limit`.
A dimension mismatch aborts with `[]` via the surrounding `except`. -/
noncomputable def searchSimilarCommitsFallback (store : Store) (q : List ℝ) (limit : Nat)
    (minSim : ℝ) : List SearchRow :=
  let commits := getCommitsWithEmbeddings store 1000
  if commits.isEmpty then []
  else if dimMismatch q commits then []
  else (sortBySimDesc (commits.filterMap (scoreCommit q minSim))).take limit

/-- `search_similar_commits`: call the store-side operator with the converted
threshold; on any RPC error fall back to the in-process scan. -/
noncomputable def searchSimilarCommits (rpc : Rpc) (store : Store) (userId : String)
    (q : List ℝ) (limit : Nat) (minSim : ℝ) : List SearchRow :=
  match rpc (searchParams userId q limit minSim) with
  | .ok rows => rows
  | .error _ => searchSimilarCommitsFallback store q limit minSim

/-! ## Embedding client (embedding_service.py) -/

/-- Python truthiness of `t and t.strip()`: the text has a non-whitespace
character. -/
def isValidText (t : String) : Bool := t.data.any (fun c => !c.isWhitespace)

/-- The external Gemini batch call: one vector per submitted text, or a raised
provider error. -/
def EmbedProvider : Type := List String → Except String (List (List ℝ))

/-- `EmbeddingService.generate_embeddings_batch`: validate, filter out blank
texts, send the filtered batch to the provider, normalize every returned
vector.  All failures surface as one wrapped error (the function re-raises). -/
noncomputable def generateEmbeddingsBatch (provider : EmbedProvider) (texts : List String) :
    Except String (List (List ℝ)) :=
  if texts.isEmpty then
    .error "Failed to generate batch embeddings: Texts list cannot be empty"
  else
    let valid := texts.filter isValidText
    if valid.isEmpty then
      .error "Failed to generate batch embeddings: All texts are empty"
    else
      match provider valid with
      | .ok embs => .ok (embs.map normalizeEmbedding)
      | .error e => .error ("Failed to generate batch embeddings: " ++ e)

/-! ## Batch embedding job orchestrator (embedding_job_service.py) -/

structure JobCounters where
  processed : Nat
  generated : Nat
  failed : Nat
  batches : Nat
deriving DecidableEq

structure JobSummary where
  total_processed : Nat
  embeddings_generated : Nat
  failed : Nat
  batches_processed : Nat
  stats : EmbeddingStats
  message : String
deriving DecidableEq

/-- `for i, commit in enumerate(commits): if i < len(embeddings): append
{commit_hash, embeddings[i]}` — the positional pairing, truncated at the
shorter list. -/
def buildCommitEmbeddings (commits : List Commit) (embs : List (List ℝ)) :
    List CommitEmbedding :=
  (List.zip commits embs).map (fun p => { hash := p.1.hash, embedding := p.2 })

/-- The `while total_processed < commits_to_process` batch loop of
`generate_embeddings_for_user`, with the service's batch-embedding call
abstracted as `embed`.  Each iteration either stops (drained backlog), or
consumes one non-empty batch, so `target` iterations always suffice; `fuel`
only makes the recursion structural. -/
def jobLoop (embed : List String → Except String (List (List ℝ)))
    (batchSize target : Nat) : Nat → Store → JobCounters → JobCounters × Store
  | 0, st, c => (c, st)
  | fuel + 1, st, c =>
    if c.processed < target then
      let currentBatchSize := min batchSize (target - c.processed)
      let commits := getCommitsWithoutEmbeddings st currentBatchSize
      if commits.isEmpty then (c, st)
      else
        match embed (commits.map (fun cm => cm.message)) with
        | .ok embs =>
          let step := saveCommitEmbeddingsBatch st (buildCommitEmbeddings commits embs)
          jobLoop embed batchSize target fuel step.1
            { processed := c.processed + commits.length
              generated := c.generated + step.2.success
              failed := c.failed + step.2.failed
              batches := c.batches + 1 }
        | .error _ =>
          jobLoop embed batchSize target fuel st
            { processed := c.processed + commits.length
              generated := c.generated
              failed := c.failed + commits.length
              batches := c.batches + 1 }
    else (c, st)

/-- `EmbeddingJobService.generate_embeddings_for_user`.  Returns the summary
and the final store.  Every store call and the batch-embedding call handle
their own failures (the embedding call's error is caught per batch inside the
loop), so the function's outer `except` handler is unreachable and the result
is always a summary, never an exception. -/
noncomputable def generateEmbeddingsForUser (provider : EmbedProvider) (store : Store)
    (batchSize : Option Nat) (maxCommits : Option Nat) : JobSummary × Store :=
  -- `batch_size or self.default_batch_size`: None and 0 both fall back to 50.
  let bs := match batchSize with
    | none => 50
    | some b => if b = 0 then 50 else b
  let initialStats := getEmbeddingStats store
  let commitsToProcess := initialStats.commits_without_embeddings
  if commitsToProcess = 0 then
    ({ total_processed := 0, embeddings_generated := 0, failed := 0, batches_processed := 0,
       stats := initialStats, message := "All commits already have embeddings" }, store)
  else
    -- `if max_commits:` — None and 0 both leave the target uncapped.
    let target := match maxCommits with
      | none => commitsToProcess
      | some m => if m = 0 then commitsToProcess else min commitsToProcess m
    let result := jobLoop (generateEmbeddingsBatch provider) bs target target store ⟨0, 0, 0, 0⟩
    let c := result.1
    ({ total_processed := c.processed, embeddings_generated := c.generated, failed := c.failed,
       batches_processed := c.batches, stats := getEmbeddingStats result.2,
       message := "Generated " ++ toString c.generated ++ " embeddings in " ++
         toString c.batches ++ " batches" }, result.2)

/-! ## Embedding status query (embedding_job_service.py, get_embedding_status) -/

structure EmbeddingStatus where
  total_commits : Nat
  commits_with_embeddings : Nat
  commits_needing_embeddings : Nat
  percentage_complete : ℚ
  ready_for_search : Bool
  estimated_batches_remaining : Nat
  status_message : String
deriving DecidableEq

/-- The derivation step of `get_embedding_status`, a pure function of the
stats record (`self.default_batch_size = 50`). -/
def getEmbeddingStatusFromStats (stats : EmbeddingStats) : EmbeddingStatus :=
  let commitsNeeding := stats.commits_without_embeddings
  let estimatedBatches := (commitsNeeding + 50 - 1) / 50
  let statusMessage :=
    if stats.percentage_complete = 100 then
      "All commits have embeddings - ready for semantic search!"
    else if 75 ≤ stats.percentage_complete then
      "Almost done! " ++ toString commitsNeeding ++ " commits remaining"
    else if 50 ≤ stats.percentage_complete then
      "Halfway there! " ++ toString commitsNeeding ++ " commits remaining"
    else if 0 < stats.percentage_complete then
      "In progress: " ++ toString commitsNeeding ++ " commits remaining"
    else
      "Not started: " ++ toString commitsNeeding ++ " commits need embeddings"
  { total_commits := stats.total_commits
    commits_with_embeddings := stats.commits_with_embeddings
    commits_needing_embeddings := commitsNeeding
    percentage_complete := stats.percentage_complete
    ready_for_search := stats.ready_for_search
    estimated_batches_remaining := estimatedBatches
    status_message := statusMessage }

/-- `EmbeddingJobService.get_embedding_status`. -/
def getEmbeddingStatus (store : Store) : EmbeddingStatus :=
  getEmbeddingStatusFromStats (getEmbeddingStats store)

/-! ## RAG context builder (rag_context_builder.py) -/

/-- The user-context row consumed read-only from the profile boundary
(`context_service.get_user_context`), flattened to the fields the builder
reads. -/
structure UserContextInfo where
  projects : List String
  tech_stack : List String
  focus_areas : List String
  key_achievements : List String
deriving DecidableEq

structure PromptAnalysis where
  topics : List String
  intent : String
  length : Nat
deriving DecidableEq

/-- The builder's output dictionary.  `prompt_analysis`/`user_context` are
`none` when the corresponding dictionary stays empty. -/
structure RagContext where
  relevant_commits : List SearchRow
  recent_commits : List SearchRow
  user_context : Option UserContextInfo
  prompt_analysis : Option PromptAnalysis
  formatted_context : String
  error : Option String

/-- The external boundaries `build_context_for_generation` touches, plus the
store.  An `.error` (or `activityError = some _`) models that boundary raising. -/
structure BuilderEnv where
  store : Store
  now : Int
  rpc : Rpc
  queryEmbed : String → Except String (List ℝ)
  activityError : Option String
  profile : Except String (Option UserContextInfo)

/-- `get_user_github_activity` as seen by the builder: the select itself can
raise (it has no internal handler), which `_get_recent_commits` catches. -/
def getUserGithubActivityE (env : BuilderEnv) (limit : Nat) (days : Int) :
    Except String (List Commit) :=
  match env.activityError with
  | some e => .error e
  | none => .ok (getUserGithubActivity env.store limit (some days) env.now)

/-- `_get_relevant_commits`: embed the query (errors caught, yielding `[]`),
then search with `min_similarity=0.5`. -/
noncomputable def getRelevantCommits (env : BuilderEnv) (userId query : String) (limit : Nat) :
    List SearchRow :=
  match env.queryEmbed query with
  | .error _ => []
  | .ok qe => searchSimilarCommits env.rpc env.store userId qe limit (1 / 2)

/-- A recent-activity row as the builder tags it: `similarity = 0.0`,
`source = "recent"` (the tag is implicit in the row's provenance here). -/
def commitToRecentRow (c : Commit) : SearchRow :=
  { hash := c.hash, message := c.message, date := c.date, repo := c.repo, similarity := 0 }

/-- `_get_recent_commits`: fetch `limit * 2` rows from the last 7 days, drop
rows whose hash is excluded, truncate to `limit`; any error yields `[]`. -/
def getRecentCommits (env : BuilderEnv) (limit : Nat) (excludeHashes : List String) :
    List SearchRow :=
  match getUserGithubActivityE env (limit * 2) 7 with
  | .error _ => []
  | .ok commits =>
    (((commits.filter (fun c => !excludeHashes.contains c.hash)).map commitToRecentRow).take
      limit)

/-- Python substring containment (`pat in hay`) for a non-empty pattern. -/
def containsSub (hay pat : String) : Bool := (hay.splitOn pat).length != 1

def anyWordIn (hay : String) (pats : List String) : Bool := pats.any (containsSub hay)

/-- `_analyze_prompt`: keyword-bucket topics and first-match intent over the
lowercased prompt; `length` is the whitespace-split word count. -/
def analyzePrompt (prompt : String) : PromptAnalysis :=
  let pl := prompt.toLower
  let topics :=
    (if anyWordIn pl ["api", "endpoint", "service", "rest"] then ["API Development"] else []) ++
    (if anyWordIn pl ["ml", "machine learning", "ai", "model"] then ["Machine Learning"] else []) ++
    (if anyWordIn pl ["bug", "fix", "issue", "resolved"] then ["Bug Fixes"] else []) ++
    (if anyWordIn pl ["feature", "new", "added", "implemented"] then ["New Features"] else []) ++
    (if anyWordIn pl ["ui", "frontend", "design", "interface"] then ["Frontend"] else []) ++
    (if anyWordIn pl ["backend", "server", "database"] then ["Backend"] else [])
  let intent :=
    if anyWordIn pl ["recent", "latest", "today", "this week"] then "recent_work"
    else if anyWordIn pl ["achievement", "proud", "success"] then "showcase"
    else if anyWordIn pl ["learning", "learned", "discovered"] then "learning"
    else "general"
  { topics := topics
    intent := intent
    length := ((prompt.split Char.isWhitespace).filter (fun w => !w.isEmpty)).length }

/-- `f"{similarity*100:.0f}"` on the exact score. -/
def pctLabel (sim : ℚ) : String := toString (round (sim * 100))

/-- The `"%b %d"` date label, abstracted (dates are integers in the model). -/
def dateLabel (d : Int) : String := toString d

def formatRelevantBlock (rows : List SearchRow) : List String :=
  if rows.isEmpty then []
  else
    ["YOUR ACTUAL WORK (Use these specific details):", ""] ++
      (rows.take 3).enum.flatMap (fun p =>
        ["Commit " ++ toString (p.1 + 1) ++ " (" ++ pctLabel p.2.similarity ++ "% relevant):",
         "  Repository: " ++ p.2.repo,
         "  What you did: " ++ p.2.message,
         ""])

def formatRecentBlock (rows : List SearchRow) : List String :=
  if rows.isEmpty then []
  else
    ["📅 RECENT ACTIVITY:"] ++
      (rows.take 2).enum.map (fun p =>
        toString (p.1 + 1) ++ ". [" ++ p.2.repo ++ "] " ++ p.2.message ++
          " (" ++ dateLabel p.2.date ++ ")") ++
      [""]

def formatUserContextBlock (uctx : Option UserContextInfo) : List String :=
  match uctx with
  | none => []
  | some u =>
    (if u.projects.isEmpty then []
     else ["💼 ACTIVE PROJECTS: " ++ String.intercalate ", " (u.projects.take 3)]) ++
    (if u.tech_stack.isEmpty then []
     else ["🛠️  TECH STACK: " ++ String.intercalate ", " (u.tech_stack.take 5)]) ++
    (if u.focus_areas.isEmpty then []
     else ["🎯 FOCUS AREAS: " ++ String.intercalate ", " (u.focus_areas.take 2)]) ++
    (if !u.projects.isEmpty || !u.tech_stack.isEmpty || !u.focus_areas.isEmpty then [""] else [])

/-- `_format_context_for_prompt`: ranked hits (top 3) first, recent hits
(top 2) second, then profile lines, joined by newlines. -/
def formatContextForPrompt (relevant recent : List SearchRow)
    (uctx : Option UserContextInfo) : String :=
  String.intercalate "\n"
    (formatRelevantBlock relevant ++ formatRecentBlock recent ++ formatUserContextBlock uctx)

/-- `build_context_for_generation`.  The only call inside the outer `try` that
can raise is the profile fetch (search and recency retrieval catch their own
errors); a raised profile fetch yields the minimal context with an empty
formatted string. -/
noncomputable def buildContextForGeneration (env : BuilderEnv) (userId prompt : String)
    (includeRecent : Bool) (maxCommits : Nat) : RagContext :=
  let relevant := getRelevantCommits env userId prompt maxCommits
  let recent :=
    if includeRecent && relevant.length < maxCommits then
      getRecentCommits env (maxCommits - relevant.length) (relevant.map (fun r => r.hash))
    else []
  match env.profile with
  | .error e =>
    { relevant_commits := [], recent_commits := [], user_context := none,
      prompt_analysis := none, formatted_context := "", error := some e }
  | .ok uctx =>
    { relevant_commits := relevant, recent_commits := recent, user_context := uctx,
      prompt_analysis := some (analyzePrompt prompt),
      formatted_context := formatContextForPrompt relevant recent uctx, error := none }

/-! ## Helper lemmas -/

lemma sumSq_nonneg (v : List ℝ) : 0 ≤ sumSq v := by
  apply List.sum_nonneg
  intro x hx
  obtain ⟨y, _, rfl⟩ := List.mem_map.mp hx
  exact mul_self_nonneg y

lemma l2norm_nonneg (v : List ℝ) : 0 ≤ l2norm v := Real.sqrt_nonneg _

lemma sumSq_cons (a : ℝ) (t : List ℝ) : sumSq (a :: t) = a * a + sumSq t := by
  simp [sumSq]

lemma sumSq_map_div (v : List ℝ) (n : ℝ) :
    sumSq (v.map (fun x => x / n)) = sumSq v / (n * n) := by
  induction v with
  | nil => simp [sumSq]
  | cons a t ih =>
    rw [List.map_cons, sumSq_cons, sumSq_cons, ih, div_mul_div_comm, div_add_div_same]

/-- Rounding-up division over `ℚ` agrees with the integer `(m + b - 1) / b`. -/
lemma nat_ceil_div_eq (m b : Nat) (hb : 0 < b) :
    Nat.ceil ((m : ℚ) / (b : ℚ)) = (m + b - 1) / b := by
  rcases Nat.eq_zero_or_pos m with hm | hm
  · subst hm
    have hdiv : (0 + b - 1) / b = 0 := Nat.div_eq_of_lt (by omega)
    rw [hdiv]
    simp
  · set k := (m + b - 1) / b with hk
    have hdm := Nat.div_add_mod (m + b - 1) b
    have hmod : (m + b - 1) % b < b := Nat.mod_lt _ hb
    have hk1 : 1 ≤ k := by
      rw [hk, Nat.one_le_div_iff hb]; omega
    have e1 : (k - 1) * b + b = b * k := by
      have h2 : k - 1 + 1 = k := Nat.succ_pred_eq_of_pos hk1
      calc (k - 1) * b + b = (k - 1 + 1) * b := by rw [Nat.add_mul, Nat.one_mul]
        _ = k * b := by rw [h2]
        _ = b * k := Nat.mul_comm _ _
    have hbQ : (0 : ℚ) < (b : ℚ) := by exact_mod_cast hb
    rw [Nat.ceil_eq_iff (by omega)]
    constructor
    · rw [lt_div_iff₀ hbQ]
      have hnat : (k - 1) * b < m := by
        generalize hK1 : (k - 1) * b = K1 at e1 ⊢
        generalize hK2 : b * k = K2 at e1 hdm
        omega
      exact_mod_cast hnat
    · rw [div_le_iff₀ hbQ]
      have hnat : m ≤ k * b := by
        rw [Nat.mul_comm]
        generalize hK2 : b * k = K2 at hdm ⊢
        omega
      exact_mod_cast hnat

/-! ## Claim C1 -/

/-- C1: every primary-path similarity search passes exactly `1 - min_similarity`
as the distance threshold to the store-side ranking operator, and
`search_similar_commits` consists of that operator call with fallback on error. -/
theorem c1_primary_threshold_inversion (userId : String) (q : List ℝ) (limit : Nat)
    (s : ℝ) (rpc : Rpc) (store : Store) :
    (searchParams userId q limit s).match_threshold = 1 - s ∧
    searchSimilarCommits rpc store userId q limit s =
      (match rpc (searchParams userId q limit s) with
       | .ok rows => rows
       | .error _ => searchSimilarCommitsFallback store q limit s) :=
  ⟨rfl, rfl⟩

/-! ## Claim C5 -/

/-- C5: every vector returned by `_normalize_embedding` has L2 norm exactly 1,
except that a zero-norm input is returned unchanged (no division happens). -/
theorem c5_unit_normalization (v : List ℝ) :
    (l2norm v = 0 → normalizeEmbedding v = v) ∧
    (l2norm v ≠ 0 → l2norm (normalizeEmbedding v) = 1) := by
  constructor
  · intro h
    unfold normalizeEmbedding
    rw [if_neg]
    intro hc
    rw [h] at hc
    exact lt_irrefl 0 hc
  · intro h
    have hpos : 0 < l2norm v := lt_of_le_of_ne (l2norm_nonneg v) (Ne.symm h)
    have hs : 0 < sumSq v := Real.sqrt_pos.mp hpos
    unfold normalizeEmbedding
    rw [if_pos hpos]
    unfold l2norm
    rw [sumSq_map_div]
    rw [Real.mul_self_sqrt (le_of_lt hs), div_self (ne_of_gt hs), Real.sqrt_one]

theorem c5_witness :
    l2norm [(3 : ℝ), 4] ≠ 0 ∧ l2norm (normalizeEmbedding [(3 : ℝ), 4]) = 1 := by
  have h : l2norm [(3 : ℝ), 4] ≠ 0 := by
    unfold l2norm
    rw [Real.sqrt_ne_zero']
    norm_num [sumSq]
  exact ⟨h, (c5_unit_normalization _).2 h⟩

/-! ## Claim C2 -/

/-- C2: on a non-empty batch of non-blank texts and a provider answering one
vector per text, `generate_embeddings_batch` returns exactly one vector per
input text, the i-th being the normalized embedding of the i-th text. -/
theorem c2_batch_positional_integrity (f : String → List ℝ) (texts : List String)
    (h1 : texts ≠ []) (h2 : ∀ t ∈ texts, isValidText t = true) :
    ∃ out, generateEmbeddingsBatch (fun ts => .ok (ts.map f)) texts = .ok out ∧
      out.length = texts.length ∧
      ∀ i : Nat, i < texts.length →
        out[i]? = (texts[i]?).map (fun t => normalizeEmbedding (f t)) := by
  have hfilter : texts.filter isValidText = texts := List.filter_eq_self.mpr h2
  have hne : texts.isEmpty = false := by
    cases texts with
    | nil => exact absurd rfl h1
    | cons a t => rfl
  refine ⟨(texts.map f).map normalizeEmbedding, ?_, by simp, ?_⟩
  · simp only [generateEmbeddingsBatch, hne, hfilter, Bool.false_eq_true, if_false]
  · intro i hi
    rw [List.getElem?_map, List.getElem?_map, Option.map_map]
    rfl

theorem c2_witness :
    (["Added ML endpoint", "Fixed CSS padding"] ≠ ([] : List String)) ∧
    (∀ t ∈ ["Added ML endpoint", "Fixed CSS padding"], isValidText t = true) ∧
    ∃ out,
      generateEmbeddingsBatch (fun ts => .ok (ts.map (fun t => [(t.length : ℝ)])))
        ["Added ML endpoint", "Fixed CSS padding"] = .ok out ∧
      out.length = (["Added ML endpoint", "Fixed CSS padding"] : List String).length ∧
      ∀ i : Nat, i < (["Added ML endpoint", "Fixed CSS padding"] : List String).length →
        out[i]? = ((["Added ML endpoint", "Fixed CSS padding"] : List String)[i]?).map
          (fun t => normalizeEmbedding [(t.length : ℝ)]) :=
  ⟨by decide, by decide,
   c2_batch_positional_integrity (fun t => [(t.length : ℝ)]) _ (by decide) (by decide)⟩

/-! ## Claim C6 -/

/-- C6: when the stats report zero records without a vector (for instance on a
second consecutive run with no new records), the orchestrator terminates
immediately with an all-zero summary and leaves the store unchanged. -/
theorem c6_idempotent_noop (provider : EmbedProvider) (store : Store)
    (batchSize maxCommits : Option Nat)
    (h : (getEmbeddingStats store).commits_without_embeddings = 0) :
    generateEmbeddingsForUser provider store batchSize maxCommits =
      ({ total_processed := 0, embeddings_generated := 0, failed := 0, batches_processed := 0,
         stats := getEmbeddingStats store, message := "All commits already have embeddings" },
       store) := by
  simp [generateEmbeddingsForUser, h]

def demoStoreAllEmbedded : Store :=
  [{ hash := "aaa1", message := "Added API endpoint", date := 10, repo := "repo-one",
     embedding := some [1, 0] }]

theorem c6_witness :
    (getEmbeddingStats demoStoreAllEmbedded).commits_without_embeddings = 0 ∧
    generateEmbeddingsForUser (fun _ => Except.error "provider down") demoStoreAllEmbedded
        none none =
      ({ total_processed := 0, embeddings_generated := 0, failed := 0, batches_processed := 0,
         stats := getEmbeddingStats demoStoreAllEmbedded,
         message := "All commits already have embeddings" }, demoStoreAllEmbedded) :=
  ⟨by decide, c6_idempotent_noop _ _ none none (by decide)⟩

/-! ## Claim C7 -/

/-- C7: the embedding status is a pure function of the store statistics, its
estimated batch count is the ceiling of `missing / 50`, its message is chosen
by percent-complete bucket, and an owner with zero records gets 0% (not a
division error) and the exact "Not started" message. -/
theorem c7_status_pure_function :
    (∀ store : Store, (getEmbeddingStatus store).estimated_batches_remaining =
        Nat.ceil (((getEmbeddingStats store).commits_without_embeddings : ℚ) / (50 : ℚ))) ∧
    (∀ s1 s2 : Store, getEmbeddingStats s1 = getEmbeddingStats s2 →
        getEmbeddingStatus s1 = getEmbeddingStatus s2) ∧
    (∀ store : Store, (getEmbeddingStatus store).status_message =
        (if (getEmbeddingStats store).percentage_complete = 100 then
          "All commits have embeddings - ready for semantic search!"
        else if 75 ≤ (getEmbeddingStats store).percentage_complete then
          "Almost done! " ++ toString ((getEmbeddingStats store).commits_without_embeddings) ++
            " commits remaining"
        else if 50 ≤ (getEmbeddingStats store).percentage_complete then
          "Halfway there! " ++ toString ((getEmbeddingStats store).commits_without_embeddings) ++
            " commits remaining"
        else if 0 < (getEmbeddingStats store).percentage_complete then
          "In progress: " ++ toString ((getEmbeddingStats store).commits_without_embeddings) ++
            " commits remaining"
        else
          "Not started: " ++ toString ((getEmbeddingStats store).commits_without_embeddings) ++
            " commits need embeddings")) ∧
    ((getEmbeddingStatus []).percentage_complete = 0 ∧
     (getEmbeddingStatus []).status_message = "Not started: 0 commits need embeddings") := by
  refine ⟨?_, ?_, ?_, ?_, ?_⟩
  · intro store
    have h := nat_ceil_div_eq ((getEmbeddingStats store).commits_without_embeddings) 50
      (by norm_num)
    have e : (((50 : ℕ)) : ℚ) = (50 : ℚ) := by norm_num
    rw [e] at h
    exact h.symm
  · intro s1 s2 h
    unfold getEmbeddingStatus
    rw [h]
  · intro store
    rfl
  · decide
  · decide

def demoStatusStoreA : Store :=
  [{ hash := "a1", message := "first", date := 1, repo := "r", embedding := some [1] }]

def demoStatusStoreB : Store :=
  [{ hash := "b2", message := "second", date := 2, repo := "r", embedding := some [0] }]

theorem c7_witness :
    getEmbeddingStats demoStatusStoreA = getEmbeddingStats demoStatusStoreB ∧
    getEmbeddingStatus demoStatusStoreA = getEmbeddingStatus demoStatusStoreB :=
  ⟨by simp [getEmbeddingStats, demoStatusStoreA, demoStatusStoreB],
   c7_status_pure_function.2.1 demoStatusStoreA demoStatusStoreB
     (by simp [getEmbeddingStats, demoStatusStoreA, demoStatusStoreB])⟩

/-! ## Stable-sort lemmas for the fallback search -/

lemma insertBySimDesc_perm (r : SearchRow) (l : List SearchRow) :
    List.Perm (insertBySimDesc r l) (r :: l) := by
  induction l with
  | nil => simp [insertBySimDesc]
  | cons b bs ih =>
    unfold insertBySimDesc
    by_cases h : b.similarity ≤ r.similarity
    · rw [if_pos h]
    · rw [if_neg h]
      exact (ih.cons b).trans (List.Perm.swap r b bs)

lemma sortBySimDesc_perm (l : List SearchRow) : List.Perm (sortBySimDesc l) l := by
  induction l with
  | nil => exact List.Perm.refl _
  | cons r rs ih => exact (insertBySimDesc_perm r _).trans (ih.cons r)

lemma insertBySimDesc_sorted (r : SearchRow) (l : List SearchRow)
    (h : List.Pairwise (fun a b => b.similarity ≤ a.similarity) l) :
    List.Pairwise (fun a b => b.similarity ≤ a.similarity) (insertBySimDesc r l) := by
  induction l with
  | nil => simp [insertBySimDesc]
  | cons b bs ih =>
    rcases List.pairwise_cons.mp h with ⟨hb, hbs⟩
    unfold insertBySimDesc
    by_cases hc : b.similarity ≤ r.similarity
    · rw [if_pos hc]
      refine List.pairwise_cons.mpr ⟨?_, h⟩
      intro a ha
      rcases List.mem_cons.mp ha with rfl | ha'
      · exact hc
      · exact le_trans (hb a ha') hc
    · rw [if_neg hc]
      refine List.pairwise_cons.mpr ⟨?_, ih hbs⟩
      intro a ha
      rcases List.mem_cons.mp ((insertBySimDesc_perm r bs).mem_iff.mp ha) with rfl | ha'
      · exact le_of_not_le hc
      · exact hb a ha'

lemma sortBySimDesc_sorted (l : List SearchRow) :
    List.Pairwise (fun a b => b.similarity ≤ a.similarity) (sortBySimDesc l) := by
  induction l with
  | nil => exact List.Pairwise.nil
  | cons r rs ih => exact insertBySimDesc_sorted r _ ih

lemma insertBySimDesc_filter (r : SearchRow) (l : List SearchRow) (v : ℚ) :
    (insertBySimDesc r l).filter (fun x => decide (x.similarity = v)) =
      if r.similarity = v then r :: l.filter (fun x => decide (x.similarity = v))
      else l.filter (fun x => decide (x.similarity = v)) := by
  induction l with
  | nil =>
    by_cases h : r.similarity = v <;> simp [insertBySimDesc, h]
  | cons b bs ih =>
    unfold insertBySimDesc
    by_cases hc : b.similarity ≤ r.similarity
    · rw [if_pos hc]
      by_cases hr : r.similarity = v <;> simp [List.filter_cons, hr]
    · rw [if_neg hc]
      by_cases hb : b.similarity = v
      · have hr : ¬ r.similarity = v := by
          intro hrv
          exact hc (by rw [hrv, hb])
        simp [List.filter_cons, hb, hr, ih]
      · simp [List.filter_cons, hb, ih]

lemma sortBySimDesc_filter (l : List SearchRow) (v : ℚ) :
    (sortBySimDesc l).filter (fun x => decide (x.similarity = v)) =
      l.filter (fun x => decide (x.similarity = v)) := by
  induction l with
  | nil => rfl
  | cons r rs ih =>
    rw [sortBySimDesc, insertBySimDesc_filter, List.filter_cons]
    by_cases hr : r.similarity = v <;> simp [hr, ih]

/-! ## Claim C4 -/

/-- C4: the fallback search loads at most 1000 stored rows with vectors, keeps
exactly those whose cosine similarity with the query is at least
`min_similarity` (score field rounded to 4 decimals), returns them sorted in
descending score with equal scores preserving the store's newest-first order,
and truncates to `limit`. -/
theorem c4_fallback_search (store : Store) (q : List ℝ) (limit : Nat) (minSim : ℝ)
    (hdim : dimMismatch q (getCommitsWithEmbeddings store 1000) = false) :
    (getCommitsWithEmbeddings store 1000).length ≤ 1000 ∧
    searchSimilarCommitsFallback store q limit minSim =
      (sortBySimDesc
        ((getCommitsWithEmbeddings store 1000).filterMap (scoreCommit q minSim))).take limit ∧
    (searchSimilarCommitsFallback store q limit minSim).length ≤ limit ∧
    List.Pairwise (fun a b => b.similarity ≤ a.similarity)
      (searchSimilarCommitsFallback store q limit minSim) ∧
    (∀ c ∈ getCommitsWithEmbeddings store 1000, ∀ e, c.embedding = some e → e ≠ [] →
      minSim ≤ cosineSim q e →
      (⟨c.hash, c.message, c.date, c.repo, round4 (cosineSim q e)⟩ : SearchRow) ∈
        sortBySimDesc
          ((getCommitsWithEmbeddings store 1000).filterMap (scoreCommit q minSim))) ∧
    (∀ r ∈ searchSimilarCommitsFallback store q limit minSim,
      ∃ c ∈ getCommitsWithEmbeddings store 1000, ∃ e, c.embedding = some e ∧ e ≠ [] ∧
        minSim ≤ cosineSim q e ∧
        r = ⟨c.hash, c.message, c.date, c.repo, round4 (cosineSim q e)⟩) ∧
    (∀ v : ℚ,
      (sortBySimDesc
          ((getCommitsWithEmbeddings store 1000).filterMap (scoreCommit q minSim))).filter
          (fun x => decide (x.similarity = v)) =
        ((getCommitsWithEmbeddings store 1000).filterMap (scoreCommit q minSim)).filter
          (fun x => decide (x.similarity = v))) := by
  have heq : searchSimilarCommitsFallback store q limit minSim =
      (sortBySimDesc
        ((getCommitsWithEmbeddings store 1000).filterMap (scoreCommit q minSim))).take limit := by
    unfold searchSimilarCommitsFallback
    by_cases he : (getCommitsWithEmbeddings store 1000).isEmpty
    · rw [if_pos he, List.isEmpty_iff.mp he]
      simp [sortBySimDesc]
    · rw [if_neg he, if_neg (by rw [hdim]; exact Bool.false_ne_true)]
  refine ⟨List.length_take_le _ _, heq, ?_, ?_, ?_, ?_, ?_⟩
  · rw [heq]
    exact List.length_take_le _ _
  · rw [heq]
    exact (sortBySimDesc_sorted _).sublist (List.take_sublist _ _)
  · intro c hc e he hne hsim
    apply (sortBySimDesc_perm _).mem_iff.mpr
    apply List.mem_filterMap.mpr
    have hne' : e.isEmpty = false := List.isEmpty_eq_false.mpr hne
    exact ⟨c, hc, by simp [scoreCommit, he, hne', hsim]⟩
  · intro r hr
    rw [heq] at hr
    have hr' : r ∈ sortBySimDesc
        ((getCommitsWithEmbeddings store 1000).filterMap (scoreCommit q minSim)) :=
      List.take_subset _ _ hr
    obtain ⟨c, hc, hsc⟩ := List.mem_filterMap.mp ((sortBySimDesc_perm _).mem_iff.mp hr')
    refine ⟨c, hc, ?_⟩
    unfold scoreCommit at hsc
    cases hemb : c.embedding with
    | none =>
      rw [hemb] at hsc
      simp at hsc
    | some e =>
      rw [hemb] at hsc
      by_cases hne : e.isEmpty = true
      · simp [hne] at hsc
      · by_cases hsim : minSim ≤ cosineSim q e
        · simp [hne, hsim] at hsc
          exact ⟨e, rfl, List.isEmpty_eq_false.mp (Bool.of_not_eq_true hne), hsim, hsc.symm⟩
        · simp [hne, hsim] at hsc
  · intro v
    exact sortBySimDesc_filter _ v

def demoQueryVec : List ℝ := [1, 0]

def demoSearchStore : Store :=
  [ { hash := "h1", message := "ml work", date := 3, repo := "r", embedding := some [1, 0] },
    { hash := "h2", message := "css fix", date := 2, repo := "r", embedding := some [0, 1] },
    { hash := "h3", message := "no vector yet", date := 1, repo := "r", embedding := none } ]

theorem c4_witness :
    dimMismatch demoQueryVec (getCommitsWithEmbeddings demoSearchStore 1000) = false ∧
    ((getCommitsWithEmbeddings demoSearchStore 1000).length ≤ 1000 ∧
    searchSimilarCommitsFallback demoSearchStore demoQueryVec 2 (1 / 2) =
      (sortBySimDesc
        ((getCommitsWithEmbeddings demoSearchStore 1000).filterMap
          (scoreCommit demoQueryVec (1 / 2)))).take 2 ∧
    (searchSimilarCommitsFallback demoSearchStore demoQueryVec 2 (1 / 2)).length ≤ 2 ∧
    List.Pairwise (fun a b => b.similarity ≤ a.similarity)
      (searchSimilarCommitsFallback demoSearchStore demoQueryVec 2 (1 / 2)) ∧
    (∀ c ∈ getCommitsWithEmbeddings demoSearchStore 1000, ∀ e, c.embedding = some e → e ≠ [] →
      (1 / 2 : ℝ) ≤ cosineSim demoQueryVec e →
      (⟨c.hash, c.message, c.date, c.repo, round4 (cosineSim demoQueryVec e)⟩ : SearchRow) ∈
        sortBySimDesc
          ((getCommitsWithEmbeddings demoSearchStore 1000).filterMap
            (scoreCommit demoQueryVec (1 / 2)))) ∧
    (∀ r ∈ searchSimilarCommitsFallback demoSearchStore demoQueryVec 2 (1 / 2),
      ∃ c ∈ getCommitsWithEmbeddings demoSearchStore 1000, ∃ e, c.embedding = some e ∧ e ≠ [] ∧
        (1 / 2 : ℝ) ≤ cosineSim demoQueryVec e ∧
        r = ⟨c.hash, c.message, c.date, c.repo, round4 (cosineSim demoQueryVec e)⟩) ∧
    (∀ v : ℚ,
      (sortBySimDesc
          ((getCommitsWithEmbeddings demoSearchStore 1000).filterMap
            (scoreCommit demoQueryVec (1 / 2)))).filter
          (fun x => decide (x.similarity = v)) =
        ((getCommitsWithEmbeddings demoSearchStore 1000).filterMap
          (scoreCommit demoQueryVec (1 / 2))).filter
          (fun x => decide (x.similarity = v)))) :=
  ⟨by decide, c4_fallback_search demoSearchStore demoQueryVec 2 (1 / 2) (by decide)⟩

/-! ## Orchestrator lemmas -/

lemma saveCommitEmbeddingsBatch_counts (items : List CommitEmbedding) :
    ∀ store : Store,
      (saveCommitEmbeddingsBatch store items).2.success +
        (saveCommitEmbeddingsBatch store items).2.failed = items.length := by
  induction items with
  | nil => intro store; rfl
  | cons item rest ih =>
    intro store
    unfold saveCommitEmbeddingsBatch
    by_cases hskip : (item.hash.data.isEmpty || item.embedding.isEmpty) = true
    · rw [if_pos hskip]
      have h := ih store
      simp only [List.length_cons]
      omega
    · rw [if_neg hskip]
      by_cases hok : (saveCommitEmbedding store item.hash item.embedding).2 = true
      · rw [if_pos hok]
        have h := ih (saveCommitEmbedding store item.hash item.embedding).1
        simp only [List.length_cons]
        omega
      · rw [if_neg hok]
        have h := ih (saveCommitEmbedding store item.hash item.embedding).1
        simp only [List.length_cons]
        omega

lemma buildCommitEmbeddings_length_le (commits : List Commit) (embs : List (List ℝ)) :
    (buildCommitEmbeddings commits embs).length ≤ commits.length := by
  unfold buildCommitEmbeddings
  rw [List.length_map, List.length_zip]
  exact min_le_left _ _

/-- With an always-failing batch-embedding call the loop leaves the store
untouched, generates nothing, and fails exactly what it processes. -/
lemma jobLoop_allFail (embed : List String → Except String (List (List ℝ)))
    (hfail : ∀ ts, ∃ e, embed ts = Except.error e) (bs target : Nat) :
    ∀ (fuel : Nat) (st : Store) (c : JobCounters),
      (jobLoop embed bs target fuel st c).2 = st ∧
      (jobLoop embed bs target fuel st c).1.generated = c.generated ∧
      (jobLoop embed bs target fuel st c).1.failed + c.processed =
        (jobLoop embed bs target fuel st c).1.processed + c.failed := by
  intro fuel
  induction fuel with
  | zero =>
    intro st c
    exact ⟨rfl, rfl, Nat.add_comm _ _⟩
  | succ n ih =>
    intro st c
    rw [jobLoop]
    by_cases h1 : c.processed < target
    · rw [if_pos h1]
      by_cases h2 : (getCommitsWithoutEmbeddings st (min bs (target - c.processed))).isEmpty = true
      · rw [if_pos h2]
        exact ⟨rfl, rfl, Nat.add_comm _ _⟩
      · rw [if_neg h2]
        obtain ⟨e, he⟩ :=
          hfail ((getCommitsWithoutEmbeddings st (min bs (target - c.processed))).map
            (fun cm => cm.message))
        rw [he]
        dsimp only
        have h := ih st
          { processed := c.processed +
              (getCommitsWithoutEmbeddings st (min bs (target - c.processed))).length
            generated := c.generated
            failed := c.failed +
              (getCommitsWithoutEmbeddings st (min bs (target - c.processed))).length
            batches := c.batches + 1 }
        refine ⟨h.1, h.2.1, ?_⟩
        have h3 := h.2.2
        dsimp only at h3
        omega
    · rw [if_neg h1]
      exact ⟨rfl, rfl, Nat.add_comm _ _⟩

/-- The loop preserves `generated + failed ≤ processed`. -/
lemma jobLoop_counter_invariant (embed : List String → Except String (List (List ℝ)))
    (bs target : Nat) :
    ∀ (fuel : Nat) (st : Store) (c : JobCounters),
      c.generated + c.failed ≤ c.processed →
      (jobLoop embed bs target fuel st c).1.generated +
        (jobLoop embed bs target fuel st c).1.failed ≤
        (jobLoop embed bs target fuel st c).1.processed := by
  intro fuel
  induction fuel with
  | zero =>
    intro st c hc
    exact hc
  | succ n ih =>
    intro st c hc
    rw [jobLoop]
    by_cases h1 : c.processed < target
    · rw [if_pos h1]
      by_cases h2 : (getCommitsWithoutEmbeddings st (min bs (target - c.processed))).isEmpty = true
      · rw [if_pos h2]
        exact hc
      · rw [if_neg h2]
        cases hm : embed ((getCommitsWithoutEmbeddings st (min bs (target - c.processed))).map
            (fun cm => cm.message)) with
        | ok embs =>
          dsimp only
          apply ih
          have hsave := saveCommitEmbeddingsBatch_counts
            (buildCommitEmbeddings (getCommitsWithoutEmbeddings st (min bs (target - c.processed)))
              embs) st
          have hlen := buildCommitEmbeddings_length_le
            (getCommitsWithoutEmbeddings st (min bs (target - c.processed))) embs
          dsimp only
          omega
        | error e =>
          dsimp only
          apply ih
          dsimp only
          omega
    · rw [if_neg h1]
      exact hc

/-! ## Claim C3 -/

/-- C3: the orchestrator isolates batch failures — when the batch-embedding
call raises on a fetched batch, every record of that batch is counted failed,
the batch counter advances, the store is untouched, and the loop continues —
and under total provider failure the job still returns a summary (generated
zero, failed equal to processed) with the store unchanged, never an
exception. -/
theorem c3_failure_isolation :
    (∀ (embed : List String → Except String (List (List ℝ))) (bs target fuel : Nat)
      (st : Store) (c : JobCounters) (err : String),
      c.processed < target →
      (getCommitsWithoutEmbeddings st (min bs (target - c.processed))).isEmpty = false →
      embed ((getCommitsWithoutEmbeddings st (min bs (target - c.processed))).map
        (fun cm => cm.message)) = Except.error err →
      jobLoop embed bs target (fuel + 1) st c =
        jobLoop embed bs target fuel st
          { processed := c.processed +
              (getCommitsWithoutEmbeddings st (min bs (target - c.processed))).length
            generated := c.generated
            failed := c.failed +
              (getCommitsWithoutEmbeddings st (min bs (target - c.processed))).length
            batches := c.batches + 1 }) ∧
    (∀ (provider : EmbedProvider),
      (∀ ts, ∃ e, generateEmbeddingsBatch provider ts = Except.error e) →
      ∀ (store : Store) (batchSize maxCommits : Option Nat),
        (generateEmbeddingsForUser provider store batchSize maxCommits).2 = store ∧
        (generateEmbeddingsForUser provider store batchSize maxCommits).1.embeddings_generated
          = 0 ∧
        (generateEmbeddingsForUser provider store batchSize maxCommits).1.failed =
          (generateEmbeddingsForUser provider store batchSize maxCommits).1.total_processed) := by
  constructor
  · intro embed bs target fuel st c err h1 h2 h3
    rw [jobLoop, if_pos h1, if_neg (by rw [h2]; exact Bool.false_ne_true), h3]
  · intro provider hfail store batchSize maxCommits
    unfold generateEmbeddingsForUser
    dsimp only
    by_cases h0 : (getEmbeddingStats store).commits_without_embeddings = 0
    · rw [if_pos h0]
      exact ⟨rfl, rfl, rfl⟩
    · rw [if_neg h0]
      dsimp only
      have h := jobLoop_allFail (generateEmbeddingsBatch provider) hfail
        (match batchSize with
          | none => 50
          | some b => if b = 0 then 50 else b)
        (match maxCommits with
          | none => (getEmbeddingStats store).commits_without_embeddings
          | some m => if m = 0 then (getEmbeddingStats store).commits_without_embeddings
              else min ((getEmbeddingStats store).commits_without_embeddings) m)
        (match maxCommits with
          | none => (getEmbeddingStats store).commits_without_embeddings
          | some m => if m = 0 then (getEmbeddingStats store).commits_without_embeddings
              else min ((getEmbeddingStats store).commits_without_embeddings) m)
        store ⟨0, 0, 0, 0⟩
      refine ⟨h.1, h.2.1, ?_⟩
      have h3 := h.2.2
      dsimp only at h3 ⊢
      omega

def demoBacklogStore : Store :=
  [{ hash := "bbb2", message := "Fix race in watcher", date := 5, repo := "repo-two",
     embedding := none }]

theorem c3_witness :
    ((0 : Nat) < 1 ∧
      (getCommitsWithoutEmbeddings demoBacklogStore (min 50 (1 - 0))).isEmpty = false ∧
      jobLoop (fun _ => Except.error "provider down") 50 1 (0 + 1) demoBacklogStore
          ⟨0, 0, 0, 0⟩ =
        jobLoop (fun _ => Except.error "provider down") 50 1 0 demoBacklogStore
          { processed := 0 +
              (getCommitsWithoutEmbeddings demoBacklogStore (min 50 (1 - 0))).length
            generated := 0
            failed := 0 +
              (getCommitsWithoutEmbeddings demoBacklogStore (min 50 (1 - 0))).length
            batches := 0 + 1 }) ∧
    ((generateEmbeddingsForUser (fun _ => Except.error "provider down") demoBacklogStore
        none none).2 = demoBacklogStore ∧
      (generateEmbeddingsForUser (fun _ => Except.error "provider down") demoBacklogStore
        none none).1.embeddings_generated = 0 ∧
      (generateEmbeddingsForUser (fun _ => Except.error "provider down") demoBacklogStore
        none none).1.failed =
        (generateEmbeddingsForUser (fun _ => Except.error "provider down") demoBacklogStore
          none none).1.total_processed) := by
  have hfail : ∀ ts, ∃ e,
      generateEmbeddingsBatch (fun _ => Except.error "provider down") ts = Except.error e := by
    intro ts
    unfold generateEmbeddingsBatch
    by_cases h : ts.isEmpty = true
    · rw [if_pos h]
      exact ⟨_, rfl⟩
    · rw [if_neg h]
      by_cases h2 : (ts.filter isValidText).isEmpty = true
      · rw [if_pos h2]
        exact ⟨_, rfl⟩
      · rw [if_neg h2]
        exact ⟨_, rfl⟩
  exact ⟨⟨by decide, by decide,
      c3_failure_isolation.1 _ 50 1 0 demoBacklogStore ⟨0, 0, 0, 0⟩ "provider down"
        (by decide) (by decide) rfl⟩,
    c3_failure_isolation.2 (fun _ => Except.error "provider down") hfail demoBacklogStore
      none none⟩

/-! ## Claim C10 -/

/-- C10: in every summary the orchestrator returns,
`embeddings_generated + failed ≤ total_processed`: each batch adds its record
count to `processed` while the save step reports success plus failure equal to
the number of pairs formed, never more than the batch size. -/
theorem c10_counters_bounded (provider : EmbedProvider) (store : Store)
    (batchSize maxCommits : Option Nat) :
    (generateEmbeddingsForUser provider store batchSize maxCommits).1.embeddings_generated +
      (generateEmbeddingsForUser provider store batchSize maxCommits).1.failed ≤
      (generateEmbeddingsForUser provider store batchSize maxCommits).1.total_processed := by
  unfold generateEmbeddingsForUser
  dsimp only
  by_cases h0 : (getEmbeddingStats store).commits_without_embeddings = 0
  · rw [if_pos h0]
    exact Nat.le_refl 0
  · rw [if_neg h0]
    dsimp only
    exact jobLoop_counter_invariant _ _ _ _ store ⟨0, 0, 0, 0⟩ (Nat.le_refl 0)

/-! ## Context-builder lemmas -/

lemma getRelevantCommits_length_le (env : BuilderEnv) (userId prompt : String) (limit : Nat)
    (hrpc : ∀ p rows, env.rpc p = Except.ok rows → rows.length ≤ p.match_count) :
    (getRelevantCommits env userId prompt limit).length ≤ limit := by
  unfold getRelevantCommits
  cases hqe : env.queryEmbed prompt with
  | error e => exact Nat.zero_le _
  | ok qe =>
    dsimp only
    unfold searchSimilarCommits
    cases hr : env.rpc (searchParams userId qe limit (1 / 2)) with
    | ok rows => exact hrpc _ _ hr
    | error e =>
      dsimp only
      unfold searchSimilarCommitsFallback
      by_cases he : (getCommitsWithEmbeddings env.store 1000).isEmpty = true
      · rw [if_pos he]
        exact Nat.zero_le _
      · rw [if_neg he]
        by_cases hd : dimMismatch qe (getCommitsWithEmbeddings env.store 1000) = true
        · rw [if_pos hd]
          exact Nat.zero_le _
        · rw [if_neg hd]
          exact List.length_take_le _ _

lemma getRecentCommits_length_le (env : BuilderEnv) (limit : Nat) (ex : List String) :
    (getRecentCommits env limit ex).length ≤ limit := by
  unfold getRecentCommits
  cases h : getUserGithubActivityE env (limit * 2) 7 with
  | error e => exact Nat.zero_le _
  | ok commits => exact List.length_take_le _ _

lemma getRecentCommits_excludes (env : BuilderEnv) (limit : Nat) (ex : List String) :
    ∀ r ∈ getRecentCommits env limit ex, ex.contains r.hash = false := by
  unfold getRecentCommits
  cases h : getUserGithubActivityE env (limit * 2) 7 with
  | error e =>
    intro r hr
    exact absurd hr (List.not_mem_nil r)
  | ok commits =>
    intro r hr
    have hr' := List.take_subset _ _ hr
    obtain ⟨c, hcf, rfl⟩ := List.mem_map.mp hr'
    have h2 := (List.mem_filter.mp hcf).2
    rw [Bool.not_eq_true'] at h2
    exact h2

/-! ## Claim C8 -/

/-- C8: in every produced context the ranked and recency hits are disjoint by
commit hash, recent hits are fetched only when ranked hits number fewer than
`max_commits`, and the combined count never exceeds `max_commits` (given the
store-side operator honours its `match_count`). -/
theorem c8_context_dedup (env : BuilderEnv) (userId prompt : String) (includeRecent : Bool)
    (maxCommits : Nat)
    (hrpc : ∀ p rows, env.rpc p = Except.ok rows → rows.length ≤ p.match_count) :
    (∀ r ∈ (buildContextForGeneration env userId prompt includeRecent maxCommits).recent_commits,
      ∀ s ∈ (buildContextForGeneration env userId prompt includeRecent maxCommits).relevant_commits,
      r.hash ≠ s.hash) ∧
    (maxCommits ≤ (getRelevantCommits env userId prompt maxCommits).length →
      (buildContextForGeneration env userId prompt includeRecent maxCommits).recent_commits
        = []) ∧
    ((buildContextForGeneration env userId prompt
        includeRecent maxCommits).relevant_commits.length +
      (buildContextForGeneration env userId prompt
        includeRecent maxCommits).recent_commits.length ≤ maxCommits) := by
  unfold buildContextForGeneration
  cases hp : env.profile with
  | error e =>
    dsimp only
    refine ⟨?_, fun _ => rfl, Nat.zero_le _⟩
    intro r hr
    exact absurd hr (List.not_mem_nil r)
  | ok uctx =>
    dsimp only
    have hRlen := getRelevantCommits_length_le env userId prompt maxCommits hrpc
    by_cases hcond : (includeRecent &&
        decide ((getRelevantCommits env userId prompt maxCommits).length < maxCommits)) = true
    · rw [if_pos hcond]
      have hlt := of_decide_eq_true ((Bool.and_eq_true _ _).mp hcond).2
      refine ⟨?_, ?_, ?_⟩
      · intro r hr s hs heq
        have hc := getRecentCommits_excludes env
          (maxCommits - (getRelevantCommits env userId prompt maxCommits).length)
          ((getRelevantCommits env userId prompt maxCommits).map (fun x => x.hash)) r hr
        have hmem : r.hash ∈ (getRelevantCommits env userId prompt maxCommits).map
            (fun x => x.hash) :=
          List.mem_map.mpr ⟨s, hs, heq.symm⟩
        have hnot : r.hash ∉ (getRelevantCommits env userId prompt maxCommits).map
            (fun x => x.hash) := by
          simpa using hc
        exact hnot hmem
      · intro hge
        exact absurd hlt (not_lt.mpr hge)
      · have hrec := getRecentCommits_length_le env
          (maxCommits - (getRelevantCommits env userId prompt maxCommits).length)
          ((getRelevantCommits env userId prompt maxCommits).map (fun x => x.hash))
        omega
    · rw [if_neg hcond]
      refine ⟨?_, fun _ => rfl, ?_⟩
      · intro r hr
        exact absurd hr (List.not_mem_nil r)
      · simpa using hRlen

def demoRagEnv : BuilderEnv :=
  { store := demoSearchStore, now := 10,
    rpc := fun _ => Except.error "missing rpc",
    queryEmbed := fun _ => Except.ok [1, 0],
    activityError := none,
    profile := Except.ok none }

theorem c8_witness :
    (∀ p rows, demoRagEnv.rpc p = Except.ok rows → rows.length ≤ p.match_count) ∧
    ((∀ r ∈ (buildContextForGeneration demoRagEnv "u1" "ml work" true 5).recent_commits,
      ∀ s ∈ (buildContextForGeneration demoRagEnv "u1" "ml work" true 5).relevant_commits,
      r.hash ≠ s.hash) ∧
    (5 ≤ (getRelevantCommits demoRagEnv "u1" "ml work" 5).length →
      (buildContextForGeneration demoRagEnv "u1" "ml work" true 5).recent_commits = []) ∧
    ((buildContextForGeneration demoRagEnv "u1" "ml work" true 5).relevant_commits.length +
      (buildContextForGeneration demoRagEnv "u1" "ml work" true 5).recent_commits.length ≤ 5)) :=
  ⟨fun _ rows h => absurd h (by simp [demoRagEnv]),
   c8_context_dedup demoRagEnv "u1" "ml work" true 5
     (fun _ rows h => absurd h (by simp [demoRagEnv]))⟩

/-! ## Claim C9 -/

/-- C9: the context builder absorbs every boundary failure — a raised profile
fetch yields the minimal context with an empty formatted string, a raised
query embedding yields empty ranked hits, a raised activity select yields
empty recent hits — and always returns a context, never an exception. -/
theorem c9_builder_never_raises (env : BuilderEnv) (userId prompt : String)
    (includeRecent : Bool) (maxCommits : Nat) :
    (∀ e, env.profile = Except.error e →
      buildContextForGeneration env userId prompt includeRecent maxCommits =
        { relevant_commits := [], recent_commits := [], user_context := none,
          prompt_analysis := none, formatted_context := "", error := some e }) ∧
    (∀ e, env.queryEmbed prompt = Except.error e →
      (buildContextForGeneration env userId prompt includeRecent maxCommits).relevant_commits
        = []) ∧
    (∀ e, env.activityError = some e →
      (buildContextForGeneration env userId prompt includeRecent maxCommits).recent_commits
        = []) := by
  refine ⟨?_, ?_, ?_⟩
  · intro e he
    unfold buildContextForGeneration
    rw [he]
  · intro e he
    unfold buildContextForGeneration
    cases hp : env.profile with
    | error e2 => rfl
    | ok uctx =>
      dsimp only
      unfold getRelevantCommits
      rw [he]
  · intro e he
    unfold buildContextForGeneration
    cases hp : env.profile with
    | error e2 => rfl
    | ok uctx =>
      dsimp only
      by_cases hcond : (includeRecent &&
          decide ((getRelevantCommits env userId prompt maxCommits).length < maxCommits)) = true
      · rw [if_pos hcond]
        unfold getRecentCommits getUserGithubActivityE
        rw [he]
      · rw [if_neg hcond]

def demoFailEnv : BuilderEnv :=
  { store := demoSearchStore, now := 10,
    rpc := fun _ => Except.error "missing rpc",
    queryEmbed := fun _ => Except.error "provider quota",
    activityError := some "select failed",
    profile := Except.error "profile table down" }

theorem c9_witness :
    (demoFailEnv.profile = Except.error "profile table down" ∧
      buildContextForGeneration demoFailEnv "u1" "prompt" true 5 =
        { relevant_commits := [], recent_commits := [], user_context := none,
          prompt_analysis := none, formatted_context := "",
          error := some "profile table down" }) ∧
    (demoFailEnv.queryEmbed "prompt" = Except.error "provider quota" ∧
      (buildContextForGeneration demoFailEnv "u1" "prompt" true 5).relevant_commits = []) ∧
    (demoFailEnv.activityError = some "select failed" ∧
      (buildContextForGeneration demoFailEnv "u1" "prompt" true 5).recent_commits = []) :=
  ⟨⟨rfl, (c9_builder_never_raises demoFailEnv "u1" "prompt" true 5).1 _ rfl⟩,
   ⟨rfl, (c9_builder_never_raises demoFailEnv "u1" "prompt" true 5).2.1 _ rfl⟩,
   ⟨rfl, (c9_builder_never_raises demoFailEnv "u1" "prompt" true 5).2.2 _ rfl⟩⟩

end SocialAI
